import Mathlib

/-!
Verification of the cristalcode/errors library: a shallow embedding of
errors.go and stack.go. Status codes are Go ints modelled as Int, Go
strings as Lean String (all index operations in the source split at the
ASCII characters '/', '\' and '.', where Go byte indices and character
indices agree). Runtime symbol resolution (runtime.FuncForPC together
with fn.FileLine and fn.Name) is modelled as an explicit resolver
function from program counters to optional function information, and the
live call stack passed to runtime.Callers as an explicit list of
program counters.
-/

namespace GoErrors

/-- Go string helper: the slice name[i+1:] where i = strings.LastIndex(name, c);
when c does not occur the whole list is returned (Go index -1). -/
def afterLast (c : Char) : List Char → List Char
  | [] => []
  | x :: xs => if c ∈ xs then afterLast c xs else if x = c then xs else x :: xs

/-- Go string helper: the slice name[i+1:] where i = strings.Index(name, c);
when c does not occur the whole list is returned (Go index -1). -/
def afterFirst (c : Char) : List Char → List Char
  | [] => []
  | x :: xs => if x = c then xs else if c ∈ xs then afterFirst c xs else x :: xs

/-- Embedding of Go path.Base: empty path gives ".", trailing slashes are
stripped, everything up to the final slash is removed, and an all-slash
path gives "/". -/
def pathBase (p : String) : String :=
  if p = "" then "."
  else
    let l := (p.toList.reverse.dropWhile (fun x => x == '/')).reverse
    let l := afterLast '/' l
    if l = [] then "/" else String.mk l

/-- From stack.go funcname: removes the path component of a function name
reported by fn.Name (slice after the last '/', then after the first '.'). -/
def funcname (name : String) : String :=
  String.mk (afterFirst '.' (afterLast '/' name.toList))

/-- Error from errors.go: a failed action with a status code. -/
structure Error where
  code : Int
  message : String
deriving Repr, DecidableEq

/-- The method (e *Error) Error() -- named ErrorText here since the Go
method shares its name with its receiver type: Sprintf "Status %d : %s". -/
def Error.ErrorText (e : Error) : String :=
  "Status " ++ toString e.code ++ " : " ++ e.message

/-- The method (e *Error) Code(). -/
def Error.Code (e : Error) : Int :=
  e.code

/-- The method (e *Error) WithStatus: sets the code in place and returns
the receiver; modelled as the updated record, which is both the
post-state of the receiver and the returned value. -/
def Error.WithStatus (e : Error) (status : Int) : Error :=
  { e with code := status }

/-- New from errors.go: an error with the given message; the code field is
Go zero-valued. (The diagnostic log emission is modelled separately by
logLine.) -/
def New (message : String) : Error :=
  { code := 0, message := message }

/-- WithStatus from errors.go: nil cause propagates nil, otherwise a new
Error with the given code and exactly the cause's message. The cause is
modelled by its Error() text. -/
def WithStatus (code : Int) (err : Option String) : Option Error :=
  match err with
  | none => none
  | some m => some { code := code, message := m }

/-- WithMessage from errors.go: nil cause propagates nil, otherwise a new
Error whose message is Sprintf "%s: %s" of the given message and the
cause's message. -/
def WithMessage (message : String) (code : Int) (err : Option String) : Option Error :=
  match err with
  | none => none
  | some m => some { code := code, message := message ++ ": " ++ m }

/-- The method (e *Error) MarshalJSON: the encoded two-field string map
together with the returned Go error value; json.Marshal of a
map[string]string always succeeds, so the error component is none. -/
def Error.MarshalJSON (e : Error) : List (String × String) × Option String :=
  ([("error", e.message), ("code", toString e.code)], none)

/-- The information runtime.FuncForPC plus fn.FileLine and fn.Name yield
for a resolvable program counter. -/
structure FuncInfo where
  name : String
  file : String
  line : Int
deriving Repr, DecidableEq

/-- A resolver models the runtime symbol tables: for each program counter
either the resolved function information or none when runtime.FuncForPC
returns nil. The source always calls fn.FileLine at the same pc that
resolved fn, so file and line are functions of the pc alone. -/
abbrev Resolver : Type := Nat → Option FuncInfo

/-- A frame is a program counter inside a stack frame (Go uintptr). -/
abbrev frame : Type := Nat

/-- From stack.go: (f frame) pc() is uintptr(f) - 1, with 64-bit uintptr
wraparound. -/
def frame.pc (f : frame) : Nat :=
  (f + (2 ^ 64 - 1)) % 2 ^ 64

/-- From stack.go: (f frame) file() is the full path from fn.FileLine, or
the literal "unknown" when the runtime cannot resolve the frame. -/
def frame.file (R : Resolver) (f : frame) : String :=
  match R f.pc with
  | none => "unknown"
  | some info => info.file

/-- From stack.go: (f frame) line() is the line from fn.FileLine, or 0
when the runtime cannot resolve the frame. -/
def frame.line (R : Resolver) (f : frame) : Int :=
  match R f.pc with
  | none => 0
  | some info => info.line

/-- frame.Format with verb 's' and no flag: path.Base of f.file(). -/
def frame.formatS (R : Resolver) (f : frame) : String :=
  pathBase (frame.file R f)

/-- frame.Format with verb 's' and the '+' flag: "unknown" when the frame
does not resolve, otherwise fn.Name, newline, tab, then the file. -/
def frame.formatPlusS (R : Resolver) (f : frame) : String :=
  match R f.pc with
  | none => "unknown"
  | some info => info.name ++ "\n\t" ++ info.file

/-- frame.Format with verb 'v' and the '+' flag: the '+s' form, a colon,
then the 'd' form (the line number). -/
def frame.formatPlusV (R : Resolver) (f : frame) : String :=
  frame.formatPlusS R f ++ ":" ++ toString (frame.line R f)

/-- A stack is the slice of captured program counters. -/
abbrev stack : Type := List Nat

/-- stack.Format with verb 'v' and the '+' flag: for each pc, a newline
then the frame's '+v' form. -/
def stack.formatPlusV (R : Resolver) (s : stack) : String :=
  String.join (s.map (fun pc => "\n" ++ frame.formatPlusV R pc))

/-- callers from stack.go: runtime.Callers(3, pcs[:]) over a 32-entry
array. The live call stack is modelled as the list of return addresses
with the runtime.Callers frame itself first (Go skip 0), so skip 3 drops
the Callers, callers and WithStack frames and at most 32 of the rest are
recorded. -/
def callers (callstack : List Nat) : stack :=
  (callstack.drop 3).take 32

/-- StackError from errors.go: an Error value plus a captured stack. -/
structure StackError where
  err : Error
  stack : stack

/-- WithStack from errors.go: nil cause propagates nil; otherwise the
inner Error gets message "%s: %s" of the given message and the cause's
message, the given status as its code, and the stack captured by
callers at the construction site. -/
def WithStack (message : String) (status : Int) (err : Option String)
    (callstack : List Nat) : Option StackError :=
  match err with
  | none => none
  | some m =>
    some { err := { code := status, message := message ++ ": " ++ m },
           stack := callers callstack }

/-- The method (s *StackError) Error() -- named ErrorText as for Error:
Sprintf "%v%+v" of the inner error's text and the stack. -/
def StackError.ErrorText (R : Resolver) (s : StackError) : String :=
  Error.ErrorText s.err ++ stack.formatPlusV R s.stack

/-- The method (s *StackError) Code(): the inner error's code. -/
def StackError.Code (s : StackError) : Int :=
  Error.Code s.err

/-- The method (s *StackError) WithStatus: sets the inner error's code in
place and returns nothing; modelled as the post-state of the receiver. -/
def StackError.WithStatus (s : StackError) (status : Int) : StackError :=
  { s with err := { s.err with code := status } }

/-- The file-name truncation inside logError: cut at the last '/' when one
occurs, otherwise at the last '\' when one occurs, otherwise unchanged. -/
def logTruncFile (file : String) : String :=
  if '/' ∈ file.toList then String.mk (afterLast '/' file.toList)
  else if '\\' ∈ file.toList then String.mk (afterLast '\\' file.toList)
  else file

/-- logError from errors.go: the single line written to the sink by
fmt.Fprintln, given the outcome of runtime.Caller(2) (none when caller
resolution fails) and the wall-clock timestamp rendered by
time.Now().Local(). Fprintln separates operands by single spaces and
appends a newline. On resolution failure file is "???" and line is 1. -/
def logLine (caller : Option (String × Int)) (e : Error) (now : String) : String :=
  match caller with
  | some (file, line) =>
    logTruncFile file ++ " " ++ toString line ++ " " ++ Error.ErrorText e
      ++ " " ++ now ++ "\n"
  | none =>
    "???" ++ " " ++ toString (1 : Int) ++ " " ++ Error.ErrorText e
      ++ " " ++ now ++ "\n"

/-- A string contains another as a contiguous substring. -/
def strContains (s sub : String) : Prop :=
  sub.toList <:+: s.toList

theorem str_toList_append (a b : String) : (a ++ b).toList = a.toList ++ b.toList :=
  rfl

theorem afterLast_append_of_mem (c : Char) (l1 l2 : List Char) (h : c ∈ l2) :
    afterLast c (l1 ++ l2) = afterLast c l2 := by
  induction l1 with
  | nil => rfl
  | cons x xs ih =>
    have hm : c ∈ xs ++ l2 := List.mem_append_right xs h
    simp [afterLast, hm, ih]

theorem afterLast_cons_self (c : Char) (l : List Char) (h : c ∉ l) :
    afterLast c (c :: l) = l := by
  simp [afterLast, h]

theorem afterFirst_append_of_not_mem (c : Char) (l1 l2 : List Char)
    (h1 : c ∉ l1) (h2 : c ∈ l2) : afterFirst c (l1 ++ l2) = afterFirst c l2 := by
  induction l1 with
  | nil => rfl
  | cons x xs ih =>
    have hx : ¬ x = c := fun he => h1 (he ▸ List.mem_cons_self x xs)
    have hm : c ∈ xs ++ l2 := List.mem_append_right xs h2
    have hxs : c ∉ xs := fun hc => h1 (List.mem_cons_of_mem x hc)
    simp [afterFirst, hx, hm, ih hxs]

theorem afterFirst_cons_self (c : Char) (l : List Char) :
    afterFirst c (c :: l) = l := by
  simp [afterFirst]

/-- C1: every annotate-with-cause constructor (WithStatus, WithMessage,
WithStack) returns nil on a nil cause; on a non-nil cause it returns a
non-nil error whose Code() equals the given status code and whose
rendered text contains the cause's message text unchanged. -/
theorem claim1_annotate_nil_propagation_code_and_contains
    (code : Int) (message m : String) (cs : List Nat) (R : Resolver) :
    WithStatus code none = none ∧
    WithMessage message code none = none ∧
    WithStack message code none cs = none ∧
    (∃ e, WithStatus code (some m) = some e ∧ Error.Code e = code ∧
      strContains (Error.ErrorText e) m) ∧
    (∃ e, WithMessage message code (some m) = some e ∧ Error.Code e = code ∧
      strContains (Error.ErrorText e) m) ∧
    (∃ s, WithStack message code (some m) cs = some s ∧ StackError.Code s = code ∧
      strContains (StackError.ErrorText R s) m) := by
  refine ⟨rfl, rfl, rfl, ⟨_, rfl, rfl, ?_⟩, ⟨_, rfl, rfl, ?_⟩, ⟨_, rfl, rfl, ?_⟩⟩
  · exact (List.suffix_append _ _).isInfix
  · exact ((List.suffix_append _ _).trans (List.suffix_append _ _)).isInfix
  · exact (((List.suffix_append _ _).trans (List.suffix_append _ _)).isInfix).trans
      (List.prefix_append _ _).isInfix

/-- C2: WithStatus keeps the cause's message with no added text;
WithMessage renders the given message, a colon and a space, then the
cause's message; the spec's example instance renders as
"Status 500 : fetch user: db down". -/
theorem claim2_annotate_message_shapes (code : Int) (message m : String) :
    WithStatus code (some m) = some { code := code, message := m } ∧
    WithMessage message code (some m)
      = some { code := code, message := message ++ ": " ++ m } ∧
    (WithMessage "fetch user" 500 (some "db down")).map Error.ErrorText
      = some "Status 500 : fetch user: db down" :=
  ⟨rfl, rfl, rfl⟩

/-- C3: New gives status code 0, the rendered text of every Error is
exactly "Status <code> : <message>", and New "disk full" has Code() 0
and renders as "Status 0 : disk full". -/
theorem claim3_new_code_zero_and_render (m : String) (e : Error) :
    Error.Code (New m) = 0 ∧
    (New m).message = m ∧
    Error.ErrorText e = "Status " ++ toString (Error.Code e) ++ " : " ++ e.message ∧
    Error.Code (New "disk full") = 0 ∧
    Error.ErrorText (New "disk full") = "Status 0 : disk full" :=
  ⟨rfl, rfl, rfl, rfl, rfl⟩

/-- C4: the structured encoding has exactly the keys "error" and "code",
"error" maps to the message and "code" maps to the base-10 string form
of the status code, a string also when the code is 0 or negative. -/
theorem claim4_marshal_two_string_keys (e : Error) :
    ((Error.MarshalJSON e).1.map Prod.fst) = ["error", "code"] ∧
    (Error.MarshalJSON e).1.lookup "error" = some e.message ∧
    (Error.MarshalJSON e).1.lookup "code" = some (toString (Error.Code e)) ∧
    (Error.MarshalJSON { code := 0, message := "m" }).1.lookup "code" = some "0" ∧
    (Error.MarshalJSON { code := -7, message := "m" }).1.lookup "code" = some "-7" :=
  ⟨rfl, rfl, rfl, rfl, rfl⟩

/-- C5 counterexample: for the runtime name of a method (here the Code
method with receiver *Error in package github.com/cristalcode/errors),
funcname keeps the receiver-type qualifier, so the displayed name is
not the method name alone as the claim states. -/
theorem claim5_counterexample :
    funcname "github.com/cristalcode/errors.(*Error).Code" = "(*Error).Code" ∧
    funcname "github.com/cristalcode/errors.(*Error).Code" ≠ "Code" :=
  ⟨by decide, by decide⟩

/-- C5 amended: funcname removes the package/module path prefix and the
package-name qualifier, everything up to and including the first dot
after the last slash; the receiver-type qualifier in what follows is
kept, not removed. -/
theorem claim5_amended_funcname_strips_path_and_package (p pkg rest : String)
    (h1 : '/' ∉ pkg.toList) (h2 : '.' ∉ pkg.toList) (h3 : '/' ∉ rest.toList) :
    funcname (p ++ "/" ++ pkg ++ "." ++ rest) = rest := by
  have hlist : (p ++ "/" ++ pkg ++ "." ++ rest).toList
      = p.toList ++ ('/' :: (pkg.toList ++ ('.' :: rest.toList))) := by
    simp [str_toList_append, List.append_assoc]
  have hnm : '/' ∉ pkg.toList ++ ('.' :: rest.toList) := by
    intro hc
    rcases List.mem_append.mp hc with h | h
    · exact h1 h
    · rcases List.mem_cons.mp h with h | h
      · exact absurd h (by decide)
      · exact h3 h
  have step1 : afterLast '/' ((p ++ "/" ++ pkg ++ "." ++ rest).toList)
      = pkg.toList ++ ('.' :: rest.toList) := by
    rw [hlist, afterLast_append_of_mem '/' _ _ (List.mem_cons_self _ _),
      afterLast_cons_self '/' _ hnm]
  have step2 : afterFirst '.' (pkg.toList ++ ('.' :: rest.toList)) = rest.toList := by
    rw [afterFirst_append_of_not_mem '.' _ _ h2 (List.mem_cons_self _ _),
      afterFirst_cons_self]
  show String.mk (afterFirst '.' (afterLast '/' (p ++ "/" ++ pkg ++ "." ++ rest).toList))
      = rest
  rw [step1, step2]
  rfl

/-- Witness for the amended C5 at the concrete runtime name
github.com/errors.New. -/
theorem claim5_amended_funcname_witness :
    ('/' ∉ "errors".toList) ∧ ('.' ∉ "errors".toList) ∧ ('/' ∉ "New".toList) ∧
    funcname ("github.com" ++ "/" ++ "errors" ++ "." ++ "New") = "New" :=
  ⟨by decide, by decide, by decide,
    claim5_amended_funcname_strips_path_and_package "github.com" "errors" "New"
      (by decide) (by decide) (by decide)⟩

/-- C6: a StackError's rendered text is exactly the inner StatusError's
rendered text "Status <code> : <message>" followed by the stack
content, and two renderings with no mutation in between are equal. -/
theorem claim6_stackerror_render_decomposition (R : Resolver) (s : StackError)
    (t1 t2 : String) (h1 : t1 = StackError.ErrorText R s)
    (h2 : t2 = StackError.ErrorText R s) :
    StackError.ErrorText R s
      = ("Status " ++ toString (Error.Code s.err) ++ " : " ++ s.err.message)
        ++ stack.formatPlusV R s.stack ∧
    t1 = t2 :=
  ⟨rfl, h1.trans h2.symm⟩

/-- Witness for C6 at a one-frame unresolvable stack. -/
theorem claim6_stackerror_render_witness :
    (StackError.ErrorText (fun _ => none) ⟨⟨404, "x"⟩, [5]⟩
      = ("Status " ++ toString (Error.Code (Error.mk 404 "x")) ++ " : " ++ "x")
        ++ stack.formatPlusV (fun _ => none) [5]) ∧
    ("Status 404 : x\nunknown:0" : String) = "Status 404 : x\nunknown:0" :=
  claim6_stackerror_render_decomposition (fun _ => none) ⟨⟨404, "x"⟩, [5]⟩
    "Status 404 : x\nunknown:0" "Status 404 : x\nunknown:0" (by decide) (by decide)

/-- C7: the StatusError mutator returns the mutated error itself, whose
Code() is the new value and whose message is unchanged, so the chained
value still renders the prior message; the StackError mutator returns
nothing but afterwards Code() reflects the new value. -/
theorem claim7_mutators (e : Error) (s : StackError) (status : Int) :
    Error.Code (Error.WithStatus e status) = status ∧
    (Error.WithStatus e status).message = e.message ∧
    Error.ErrorText (Error.WithStatus e status)
      = "Status " ++ toString status ++ " : " ++ e.message ∧
    StackError.Code (StackError.WithStatus s status) = status ∧
    (StackError.WithStatus s status).err.message = s.err.message :=
  ⟨rfl, rfl, rfl, rfl, rfl⟩

/-- C8: a captured stack never holds more than 32 frames, and a call
stack deep enough is silently truncated to exactly 32 frames. -/
theorem claim8_stack_cap (callstack : List Nat) :
    (callers callstack).length ≤ 32 ∧
    (32 ≤ (callstack.drop 3).length → (callers callstack).length = 32) := by
  refine ⟨?_, fun h => ?_⟩
  · simp [callers, List.length_take]
  · have h2 : (callers callstack).length = min 32 ((callstack.drop 3).length) := by
      simp [callers]
    rw [h2]
    exact Nat.min_eq_left h

/-- Witness for C8 at a 40-deep call stack. -/
theorem claim8_stack_cap_witness :
    32 ≤ ((List.replicate 40 (0 : Nat)).drop 3).length ∧
    (callers (List.replicate 40 0)).length = 32 :=
  ⟨by decide, (claim8_stack_cap (List.replicate 40 0)).2 (by decide)⟩

/-- C9: resolution failures degrade gracefully and no operation fails:
an unresolvable frame renders "unknown" in short form with line 0, and
a failed caller resolution logs file "???" and line 1 while the log
line is still produced. -/
theorem claim9_degrade_gracefully (R : Resolver) (f : frame) (e : Error)
    (now : String) (h : R f.pc = none) :
    frame.file R f = "unknown" ∧
    frame.formatS R f = "unknown" ∧
    frame.line R f = 0 ∧
    logLine none e now = "??? 1 " ++ Error.ErrorText e ++ " " ++ now ++ "\n" := by
  have hfile : frame.file R f = "unknown" := by simp [frame.file, h]
  refine ⟨hfile, ?_, by simp [frame.line, h], rfl⟩
  show pathBase (frame.file R f) = "unknown"
  rw [hfile]
  decide

/-- Witness for C9 at an everywhere-unresolvable resolver. -/
theorem claim9_degrade_gracefully_witness :
    ((fun _ => (none : Option FuncInfo)) (frame.pc 5) = none) ∧
    (frame.file (fun _ => none) 5 = "unknown" ∧
     frame.formatS (fun _ => none) 5 = "unknown" ∧
     frame.line (fun _ => none) 5 = 0 ∧
     logLine none ⟨0, "m"⟩ "t"
       = "??? 1 " ++ Error.ErrorText ⟨0, "m"⟩ ++ " " ++ "t" ++ "\n") :=
  ⟨rfl, claim9_degrade_gracefully (fun _ => none) 5 ⟨0, "m"⟩ "t" rfl⟩

/-- C10: MarshalJSON always returns a nil Go error: the structured
encoding never fails. -/
theorem claim10_marshal_never_fails (e : Error) :
    (Error.MarshalJSON e).2 = none :=
  rfl

end GoErrors
